import Mathlib

/-!
Verification development for the rtc-node streaming engine.

The JavaScript front-end modules (`byoc-comfy-rtc.js`, the Daydream state
module, `rtc_manager.js`, the settings module) are shallowly embedded below:
stateful methods become explicit state-passing functions, fallible
collaborators (SDK calls, fetches) become explicit outcome parameters, and
JavaScript's `undefined` return value becomes `Option.none`.  The Python
backend components (FrameBridge, FrameSource, StatusThrottle) are not part of
the checked sources, so they are modelled from the specification text; each
such definition is marked `Modelled from the spec:`.
-/

namespace RtcNode

/-! ### FrameBridge (modelled from the spec) -/

/-- Default FrameBridge capacity N (spec: "at most N (default 90) pending
Frames"). -/
def FRAME_BRIDGE_CAPACITY : Nat := 90

/-- Modelled from the spec: the FrameBridge implementation
(`rtc_stream` Python backend) is absent from the checked sources.
"enqueue(frame): never blocks the caller.  If the buffer is at capacity, the
oldest buffered frame is evicted before inserting the new one."  The buffer is
an ordered list whose head is the oldest entry; frames are stand-in ids. -/
def FrameBridge.enqueue (cap : Nat) (buf : List Nat) (f : Nat) : List Nat :=
  if buf.length < cap then buf ++ [f] else buf.tail ++ [f]

/-- Modelled from the spec: folding a whole sequence of producer enqueues
into the bridge, in order. -/
def FrameBridge.enqueueAll (cap : Nat) (buf : List Nat) (fs : List Nat) : List Nat :=
  fs.foldl (FrameBridge.enqueue cap) buf

/-- Modelled from the spec: "try_dequeue() -> Option<Frame>: non-blocking pop
of the oldest buffered frame; returns nothing if empty." -/
def FrameBridge.tryDequeue (buf : List Nat) : Option Nat × List Nat :=
  match buf with
  | [] => (none, [])
  | f :: rest => (some f, rest)

lemma FrameBridge.enqueue_step (cap : Nat) (hcap : 0 < cap) (l : List Nat) (f : Nat) :
    FrameBridge.enqueue cap (l.drop (l.length - cap)) f
      = (l ++ [f]).drop ((l ++ [f]).length - cap) := by
  unfold FrameBridge.enqueue
  rcases Nat.lt_or_ge l.length cap with hlt | hge
  · have h0 : l.length - cap = 0 := Nat.sub_eq_zero_of_le (Nat.le_of_lt hlt)
    simp only [h0, List.drop_zero, List.length_append, List.length_singleton]
    rw [if_pos hlt, (by omega : l.length + 1 - cap = 0), List.drop_zero]
  · have hlen : (l.drop (l.length - cap)).length = cap := by
      simp only [List.length_drop]
      omega
    have hnot : ¬ (l.drop (l.length - cap)).length < cap := by omega
    rw [if_neg hnot]
    have htail : (l.drop (l.length - cap)).tail = l.drop (l.length - cap + 1) := by
      rw [List.tail_drop]
    have hidx : l.length - cap + 1 = l.length + 1 - cap := by omega
    have hle : l.length + 1 - cap ≤ l.length := by omega
    rw [htail, hidx]
    simp only [List.length_append, List.length_singleton]
    rw [List.drop_append_of_le_length hle]

lemma FrameBridge.enqueueAll_drop (cap : Nat) (hcap : 0 < cap) :
    ∀ (fs l : List Nat),
      FrameBridge.enqueueAll cap (l.drop (l.length - cap)) fs
        = (l ++ fs).drop ((l ++ fs).length - cap) := by
  intro fs
  induction fs with
  | nil => intro l; simp [FrameBridge.enqueueAll]
  | cons f fs ih =>
    intro l
    have hstep := FrameBridge.enqueue_step cap hcap l f
    have hrec := ih (l ++ [f])
    calc FrameBridge.enqueueAll cap (l.drop (l.length - cap)) (f :: fs)
        = FrameBridge.enqueueAll cap
            (FrameBridge.enqueue cap (l.drop (l.length - cap)) f) fs := rfl
      _ = FrameBridge.enqueueAll cap
            ((l ++ [f]).drop ((l ++ [f]).length - cap)) fs := by rw [hstep]
      _ = ((l ++ [f]) ++ fs).drop (((l ++ [f]) ++ fs).length - cap) := hrec
      _ = (l ++ (f :: fs)).drop ((l ++ (f :: fs)).length - cap) := by
            simp [List.append_assoc]

lemma FrameBridge.enqueueAll_nil_eq (cap : Nat) (hcap : 0 < cap) (fs : List Nat) :
    FrameBridge.enqueueAll cap [] fs = fs.drop (fs.length - cap) := by
  have h := FrameBridge.enqueueAll_drop cap hcap fs []
  simpa using h

/-- C2: for every sequence of FrameBridge.enqueue operations the buffer length
never exceeds the capacity `cap` (default 90); an enqueue against a full
buffer evicts exactly the oldest (head) entry, never blocks (it is a total
function), and the surviving frames keep their original FIFO order: the
buffer is always the suffix of the most recently enqueued frames. -/
theorem frameBridge_bounded_drop_oldest (cap : Nat) (hcap : 0 < cap)
    (fs : List Nat) (buf : List Nat) (f : Nat) :
    FrameBridge.enqueueAll cap [] fs = fs.drop (fs.length - cap)
    ∧ (FrameBridge.enqueueAll cap [] fs).length ≤ cap
    ∧ (buf.length = cap → FrameBridge.enqueue cap buf f = buf.tail ++ [f]) := by
  refine ⟨FrameBridge.enqueueAll_nil_eq cap hcap fs, ?_, ?_⟩
  · rw [FrameBridge.enqueueAll_nil_eq cap hcap fs]
    simp only [List.length_drop]
    omega
  · intro hfull
    unfold FrameBridge.enqueue
    rw [if_neg (by omega)]

/-- Witness for C2 at the spec's overflow scenario: 95 frames enqueued with
capacity 90 leave exactly the 90 most recent frames, in original order. -/
theorem frameBridge_bounded_drop_oldest_witness :
    0 < 90
    ∧ FrameBridge.enqueueAll 90 [] (List.range 95)
        = (List.range 95).drop ((List.range 95).length - 90) :=
  ⟨by decide, (frameBridge_bounded_drop_oldest 90 (by decide)
      (List.range 95) [] 0).1⟩

/-! ### FrameSource (modelled from the spec) -/

/-- Modelled from the spec: FrameSource state.  The FrameSource
implementation (Python backend) is absent from the checked sources.  It holds
the bridge buffer it consumes, the most recently delivered live frame, the
looping fallback-media frames, the cycling fallback still images, and the
presentation timestamp (in encoder ticks) of the last emitted frame.
Pixel buffers are stand-in ids. -/
structure FrameSourceState where
  bridge : List Nat
  lastLive : Option Nat
  mediaFrames : List Nat
  mediaIdx : Nat
  imageFrames : List Nat
  imageIdx : Nat
  pts : Nat
  deriving Repr, DecidableEq

/-- Modelled from the spec: the strict priority chain choosing the pixel data
of the next frame: (1) a frame available from FrameBridge right now, (2) the
most recently delivered live frame replayed, (3) a frame from the fallback
media file, looping, (4) a frame from the fallback still-image directory,
cycling, (5) a synthetic blank frame (id 0) as last resort. -/
def FrameSource.selectData (s : FrameSourceState) : Nat × FrameSourceState :=
  match s.bridge with
  | f :: rest => (f, { s with bridge := rest, lastLive := some f })
  | [] =>
    match s.lastLive with
    | some f => (f, s)
    | none =>
      match s.mediaFrames with
      | [] =>
        match s.imageFrames with
        | [] => (0, s)
        | imgs => (imgs.getD (s.imageIdx % imgs.length) 0,
                   { s with imageIdx := s.imageIdx + 1 })
      | ms => (ms.getD (s.mediaIdx % ms.length) 0,
               { s with mediaIdx := s.mediaIdx + 1 })

/-- Modelled from the spec: "produce exactly one Frame per invocation of its
next_frame() operation"; the returned frame carries pixel data from the
priority chain and a presentation timestamp advanced by exactly one encoder
tick from the previous one, whichever source supplied the data.  Returns
((pixel data, pts), next state); no error is ever returned. -/
def FrameSource.nextFrame (s : FrameSourceState) : (Nat × Nat) × FrameSourceState :=
  let r := FrameSource.selectData s
  ((r.1, s.pts + 1), { r.2 with pts := s.pts + 1 })

/-- Operations the environment can interleave: a synchronous producer enqueue
into the bridge, or one encoder-tick pull through next_frame(). -/
inductive FSOp where
  | enqueue (f : Nat)
  | next
  deriving Repr, DecidableEq

/-- Count of next_frame() calls in an operation sequence. -/
def FSOp.countNext (ops : List FSOp) : Nat :=
  ops.countP fun op => match op with
    | FSOp.next => true
    | FSOp.enqueue _ => false

/-- Modelled from the spec: one environment step; a producer enqueue goes
through the bounded FrameBridge (capacity 90) and emits nothing, one
next_frame() call emits the frame's presentation timestamp. -/
def FrameSource.step (s : FrameSourceState) : FSOp → FrameSourceState × Option Nat
  | FSOp.enqueue f =>
      ({ s with bridge := FrameBridge.enqueue FRAME_BRIDGE_CAPACITY s.bridge f }, none)
  | FSOp.next =>
      let r := FrameSource.nextFrame s
      (r.2, some r.1.2)

/-- Sequence of presentation timestamps returned by the next_frame() calls in
an operation sequence, in order. -/
def FrameSource.ptsTrace (s : FrameSourceState) : List FSOp → List Nat
  | [] => []
  | op :: ops =>
    match FrameSource.step s op with
    | (s', some p) => p :: FrameSource.ptsTrace s' ops
    | (s', none) => FrameSource.ptsTrace s' ops

lemma FrameSource.nextFrame_pts (s : FrameSourceState) :
    (FrameSource.nextFrame s).1.2 = s.pts + 1 := rfl

lemma FrameSource.nextFrame_state_pts (s : FrameSourceState) :
    (FrameSource.nextFrame s).2.pts = s.pts + 1 := rfl

lemma FrameSource.ptsTrace_eq (ops : List FSOp) :
    ∀ s : FrameSourceState,
      FrameSource.ptsTrace s ops = List.range' (s.pts + 1) (FSOp.countNext ops) := by
  induction ops with
  | nil => intro s; simp [FrameSource.ptsTrace, FSOp.countNext]
  | cons op ops ih =>
    intro s
    cases op with
    | enqueue f =>
      have hstep :
          FrameSource.step s (FSOp.enqueue f)
            = ({ s with bridge := FrameBridge.enqueue FRAME_BRIDGE_CAPACITY s.bridge f },
               none) := rfl
      have hcount : FSOp.countNext (FSOp.enqueue f :: ops) = FSOp.countNext ops := by
        simp [FSOp.countNext]
      rw [FrameSource.ptsTrace, hstep, hcount]
      exact ih _
    | next =>
      have hstep :
          FrameSource.step s FSOp.next
            = ((FrameSource.nextFrame s).2, some ((FrameSource.nextFrame s).1.2)) := rfl
      have hcount : FSOp.countNext (FSOp.next :: ops) = FSOp.countNext ops + 1 := by
        simp [FSOp.countNext]
      rw [FrameSource.ptsTrace, hstep, hcount]
      show (FrameSource.nextFrame s).1.2
            :: FrameSource.ptsTrace (FrameSource.nextFrame s).2 ops
          = List.range' (s.pts + 1) (FSOp.countNext ops + 1)
      rw [ih ((FrameSource.nextFrame s).2)]
      rw [FrameSource.nextFrame_state_pts, FrameSource.nextFrame_pts]
      rw [List.range'_succ]

/-- C1: across any interleaving of producer enqueues and next_frame() calls,
from any FrameSource state (hence across arbitrary live / cached-live /
fallback-media / fallback-image / dummy transitions), the presentation
timestamps returned by successive next_frame() calls are exactly the
consecutive encoder ticks pts+1, pts+2, ...: each is strictly greater than
the previous and larger by exactly one tick, with no reset, freeze or jump. -/
theorem frameSource_monotonic_pts (s : FrameSourceState) (ops : List FSOp) :
    FrameSource.ptsTrace s ops = List.range' (s.pts + 1) (FSOp.countNext ops)
    ∧ ∀ (i : Nat) (h1 : i < (FrameSource.ptsTrace s ops).length)
        (h2 : i + 1 < (FrameSource.ptsTrace s ops).length),
        (FrameSource.ptsTrace s ops).get ⟨i + 1, h2⟩
          = (FrameSource.ptsTrace s ops).get ⟨i, h1⟩ + 1 := by
  refine ⟨FrameSource.ptsTrace_eq ops s, ?_⟩
  intro i h1 h2
  have hcf := FrameSource.ptsTrace_eq ops s
  simp only [List.get_eq_getElem]
  have h1' : i < (List.range' (s.pts + 1) (FSOp.countNext ops)).length := by
    rw [← hcf]; exact h1
  have h2' : i + 1 < (List.range' (s.pts + 1) (FSOp.countNext ops)).length := by
    rw [← hcf]; exact h2
  calc (FrameSource.ptsTrace s ops)[i + 1]
      = (List.range' (s.pts + 1) (FSOp.countNext ops))[i + 1] := by
        simp only [hcf]
    _ = s.pts + 1 + (i + 1) := List.getElem_range'_1 (i + 1) h2'
    _ = (s.pts + 1 + i) + 1 := by omega
    _ = (List.range' (s.pts + 1) (FSOp.countNext ops))[i] + 1 := by
        rw [List.getElem_range'_1 i h1']
    _ = (FrameSource.ptsTrace s ops)[i] + 1 := by
        simp only [hcf]

/-- Witness for C1: a concrete run that drains one live frame, hits the
cached-live path, then the dummy path, alternating with enqueues; the
timestamps are the consecutive ticks 8, 9, 10. -/
theorem frameSource_monotonic_pts_witness :
    FrameSource.ptsTrace ⟨[5], none, [], 0, [], 0, 7⟩
        [FSOp.next, FSOp.next, FSOp.enqueue 9, FSOp.next] = [8, 9, 10]
    ∧ (FrameSource.ptsTrace ⟨[5], none, [], 0, [], 0, 7⟩
        [FSOp.next, FSOp.next, FSOp.enqueue 9, FSOp.next]).get ⟨1, by decide⟩
      = (FrameSource.ptsTrace ⟨[5], none, [], 0, [], 0, 7⟩
        [FSOp.next, FSOp.next, FSOp.enqueue 9, FSOp.next]).get ⟨0, by decide⟩ + 1 := by
  refine ⟨by decide, ?_⟩
  exact (frameSource_monotonic_pts ⟨[5], none, [], 0, [], 0, 7⟩
    [FSOp.next, FSOp.next, FSOp.enqueue 9, FSOp.next]).2 0 (by decide) (by decide)

/-! ### StatusThrottle (modelled from the spec) -/

/-- Default minimum remote status refresh interval in milliseconds (spec:
"default 3 seconds"). -/
def STATUS_MIN_REFRESH_INTERVAL_MS : Nat := 3000

/-- Modelled from the spec: the StatusThrottle state (Python backend absent
from the checked sources): the time of the last remote fetch, if any, and the
cached RemoteStatusSnapshot (a stand-in id). -/
structure ThrottleState where
  lastPolledAt : Option Nat
  snapshot : Nat
  deriving Repr, DecidableEq

/-- Modelled from the spec: whether a status(refresh_remote=true) call at
time `now` performs a fresh remote fetch: it does exactly when no fetch was
ever performed or the cached snapshot is at least `interval` old. -/
def ThrottleState.shouldFetch (interval : Nat) (s : ThrottleState) (now : Nat) : Bool :=
  match s.lastPolledAt with
  | none => true
  | some t => interval ≤ now - t

/-- Modelled from the spec: one status(refresh_remote=true) call at time
`now` through the throttle; `remote` gives the remote snapshot observed at a
fetch time.  Returns (whether a remote fetch was issued, the snapshot served,
the next throttle state); intervening calls are served from the cache. -/
def statusRefresh (interval : Nat) (remote : Nat → Nat) (s : ThrottleState)
    (now : Nat) : Bool × Nat × ThrottleState :=
  if ThrottleState.shouldFetch interval s now then
    (true, remote now, { lastPolledAt := some now, snapshot := remote now })
  else
    (false, s.snapshot, s)

/-- Runs a sequence of status(refresh_remote=true) calls at the given times,
collecting for each call whether a remote fetch was issued and the snapshot
served. -/
def statusRun (interval : Nat) (remote : Nat → Nat) (s : ThrottleState) :
    List Nat → List (Bool × Nat)
  | [] => []
  | t :: ts =>
    let r := statusRefresh interval remote s t
    (r.1, r.2.1) :: statusRun interval remote r.2.2 ts

lemma statusRun_cached (interval : Nat) (remote : Nat → Nat) (t1 : Nat) :
    ∀ ts : List Nat, (∀ t ∈ ts, t1 ≤ t ∧ t < t1 + interval) →
      statusRun interval remote ⟨some t1, remote t1⟩ ts
        = ts.map fun _ => (false, remote t1) := by
  intro ts
  induction ts with
  | nil => intro _; simp [statusRun]
  | cons t ts ih =>
    intro hts
    have ht := hts t (List.mem_cons_self t ts)
    have hno : ThrottleState.shouldFetch interval ⟨some t1, remote t1⟩ t = false := by
      simp only [ThrottleState.shouldFetch, decide_eq_false_iff_not]
      omega
    have hrefresh : statusRefresh interval remote ⟨some t1, remote t1⟩ t
        = (false, remote t1, ⟨some t1, remote t1⟩) := by
      unfold statusRefresh
      rw [hno]
      simp
    rw [statusRun, hrefresh]
    simp only [List.map_cons]
    exact congrArg _ (ih fun u hu => hts u (List.mem_cons_of_mem t hu))

/-- C8: for any sequence of status(refresh_remote=true) calls whose first
call (at time t1) finds the cache empty or expired, and whose remaining calls
all happen within one minimum interval of t1, exactly one underlying remote
fetch is performed (by the first call); every other call is served the
snapshot cached at t1 without a fetch. -/
theorem statusThrottle_single_fetch (interval : Nat) (remote : Nat → Nat)
    (s0 : ThrottleState) (t1 : Nat) (ts : List Nat)
    (hfirst : ThrottleState.shouldFetch interval s0 t1 = true)
    (hts : ∀ t ∈ ts, t1 ≤ t ∧ t < t1 + interval) :
    statusRun interval remote s0 (t1 :: ts)
      = (true, remote t1) :: (ts.map fun _ => (false, remote t1))
    ∧ (statusRun interval remote s0 (t1 :: ts)).countP (fun r => r.1) = 1 := by
  have hrefresh : statusRefresh interval remote s0 t1
      = (true, remote t1, ⟨some t1, remote t1⟩) := by
    unfold statusRefresh
    rw [hfirst]
    simp
  have hrun : statusRun interval remote s0 (t1 :: ts)
      = (true, remote t1) :: (ts.map fun _ => (false, remote t1)) := by
    rw [statusRun, hrefresh]
    exact congrArg _ (statusRun_cached interval remote t1 ts hts)
  refine ⟨hrun, ?_⟩
  rw [hrun]
  rw [List.countP_cons_of_pos _ _ (by simp)]
  have hzero : (ts.map fun _ => ((false, remote t1) : Bool × Nat)).countP
      (fun r => r.1) = 0 := by
    rw [List.countP_eq_zero]
    intro r hr
    rcases List.mem_map.mp hr with ⟨u, _, hu⟩
    subst hu
    simp
  omega

/-- Witness for C8: four calls at times 1000, 1500, 2500 and 3999 against an
empty cache and the default 3000 ms interval perform exactly one fetch. -/
theorem statusThrottle_single_fetch_witness :
    statusRun STATUS_MIN_REFRESH_INTERVAL_MS (fun t => t + 1) ⟨none, 0⟩
        [1000, 1500, 2500, 3999]
      = [(true, 1001), (false, 1001), (false, 1001), (false, 1001)]
    ∧ (statusRun STATUS_MIN_REFRESH_INTERVAL_MS (fun t => t + 1) ⟨none, 0⟩
        [1000, 1500, 2500, 3999]).countP (fun r => r.1) = 1 := by
  have h := statusThrottle_single_fetch STATUS_MIN_REFRESH_INTERVAL_MS
    (fun t => t + 1) ⟨none, 0⟩ 1000 [1500, 2500, 3999] (by decide)
    (by intro t ht; fin_cases ht <;> constructor <;> decide)
  exact ⟨h.1.trans (by decide), h.2⟩

/-! ### Base-URL normalization (settings modules in the checked sources) -/

/-- Default local API server base URL (the JS constant DEFAULT_SERVER_BASE). -/
def DEFAULT_SERVER_BASE : String := "http://127.0.0.1:8895"

/-- Default Daydream API base URL (the JS constant DEFAULT_API_BASE). -/
def DEFAULT_API_BASE : String := "https://api.daydream.live"

/-- Characters removed by the JavaScript String.prototype.trim call: ASCII
whitespace and the common Unicode space characters the inputs can contain. -/
def jsWhitespace (c : Char) : Bool :=
  c = ' ' || c = '\t' || c = '\n' || c = '\r' || c = '\x0b' || c = '\x0c'
    || c = '\u00A0'

/-- Embedding of the JS `value.trim()` call: strips jsWhitespace from both
ends. -/
def jsTrim (s : String) : String :=
  ⟨((s.data.dropWhile jsWhitespace).reverse.dropWhile jsWhitespace).reverse⟩

/-- Embedding of the JS `trimmed.replace(/\/+$/, "")` call: removes every
trailing slash. -/
def stripTrailingSlashes (s : String) : String :=
  ⟨(s.data.reverse.dropWhile fun c => c = '/').reverse⟩

/-- A JavaScript value as seen by the normalizers: either not a string (any
non-string value, falsy or not, takes the default branch via the
`!value || typeof value !== "string"` test) or a string. -/
inductive JSValue where
  | nonString
  | str (s : String)
  deriving Repr, DecidableEq

/-- Shared body of normalizeServerBase (byoc state module, sidebar module)
and normalizeApiBase (settings module), which differ only in the default:
non-strings and empty strings map to the default, otherwise the value is
trimmed; a whitespace-only value maps to the default, anything else has its
trailing slashes removed. -/
def normalizeBaseWith (dflt : String) : JSValue → String
  | JSValue.nonString => dflt
  | JSValue.str s =>
    if s = "" then dflt
    else
      let trimmed := jsTrim s
      if trimmed = "" then dflt else stripTrailingSlashes trimmed

/-- The JS function normalizeServerBase. -/
def normalizeServerBase : JSValue → String :=
  normalizeBaseWith DEFAULT_SERVER_BASE

/-- The JS function normalizeApiBase. -/
def normalizeApiBase : JSValue → String :=
  normalizeBaseWith DEFAULT_API_BASE

lemma stripTrailingSlashes_eq_rdropWhile (s : String) :
    stripTrailingSlashes s = ⟨s.data.rdropWhile fun c => c = '/'⟩ := rfl

lemma stripTrailingSlashes_getLast? (s : String) :
    (stripTrailingSlashes s).data.getLast? ≠ some '/' := by
  rw [stripTrailingSlashes_eq_rdropWhile]
  intro hcontra
  have hne : (s.data.rdropWhile fun c => c = '/') ≠ [] := by
    intro hnil
    rw [hnil] at hcontra
    exact Option.noConfusion hcontra
  rw [List.getLast?_eq_getLast _ hne] at hcontra
  have hlast : (s.data.rdropWhile fun c => c = '/').getLast hne = '/' :=
    Option.some_injective _ hcontra
  have := List.rdropWhile_last_not (fun c => decide (c = '/')) s.data hne
  simp only [hlast, decide_eq_true_eq] at this
  exact this trivial

lemma normalizeBaseWith_str (dflt : String) (s : String) :
    normalizeBaseWith dflt (JSValue.str s)
      = if s = "" then dflt
        else if jsTrim s = "" then dflt else stripTrailingSlashes (jsTrim s) := rfl

lemma normalizeBaseWith_getLast? (dflt : String)
    (hd : dflt.data.getLast? ≠ some '/') (v : JSValue) :
    (normalizeBaseWith dflt v).data.getLast? ≠ some '/' := by
  cases v with
  | nonString => exact hd
  | str s =>
    rw [normalizeBaseWith_str]
    by_cases h1 : s = ""
    · rw [if_pos h1]; exact hd
    · rw [if_neg h1]
      by_cases h2 : jsTrim s = ""
      · rw [if_pos h2]; exact hd
      · rw [if_neg h2]
        exact stripTrailingSlashes_getLast? (jsTrim s)

lemma stripTrailingSlashes_of_getLast? (y : String)
    (hy : y.data.getLast? ≠ some '/') : stripTrailingSlashes y = y := by
  rw [stripTrailingSlashes_eq_rdropWhile]
  have : y.data.rdropWhile (fun c => c = '/') = y.data := by
    rw [List.rdropWhile_eq_self_iff]
    intro hne hcontra
    apply hy
    rw [List.getLast?_eq_getLast _ hne]
    simp only [decide_eq_true_eq] at hcontra
    rw [hcontra]
  rw [this]

lemma normalizeBaseWith_idem (dflt : String) (v : JSValue)
    (hd : dflt.data.getLast? ≠ some '/')
    (hne : normalizeBaseWith dflt v ≠ "")
    (htrim : jsTrim (normalizeBaseWith dflt v) = normalizeBaseWith dflt v) :
    normalizeBaseWith dflt (JSValue.str (normalizeBaseWith dflt v))
      = normalizeBaseWith dflt v := by
  have hlast := normalizeBaseWith_getLast? dflt hd v
  rw [normalizeBaseWith_str dflt (normalizeBaseWith dflt v)]
  rw [if_neg hne, htrim, if_neg hne]
  exact stripTrailingSlashes_of_getLast? _ hlast

/-- C9 counterexample: on the input "/" the normalizer returns the empty
string — not a non-empty string — and applying it again to that output
returns the default base instead, so it is not idempotent as claimed. -/
theorem normalizeServerBase_counterexample :
    normalizeServerBase (JSValue.str "/") = ""
    ∧ normalizeServerBase
        (JSValue.str (normalizeServerBase (JSValue.str "/")))
        ≠ normalizeServerBase (JSValue.str "/") := by
  constructor
  · rfl
  · decide

/-- C9 (amended): normalizeServerBase and normalizeApiBase are total and
return a string with no trailing slash; every non-string, empty or
whitespace-only input returns the respective default base; and each is
idempotent on every input whose output is non-empty and carries no
surrounding whitespace (an input whose trimmed form consists solely of
slashes yields the empty string, on which a second application returns the
default instead). -/
theorem normalizeBase_total_amended (v : JSValue) :
    (normalizeServerBase v).data.getLast? ≠ some '/'
    ∧ normalizeServerBase JSValue.nonString = DEFAULT_SERVER_BASE
    ∧ (∀ s : String, v = JSValue.str s → jsTrim s = "" →
        normalizeServerBase v = DEFAULT_SERVER_BASE)
    ∧ (normalizeServerBase v ≠ "" →
        jsTrim (normalizeServerBase v) = normalizeServerBase v →
        normalizeServerBase (JSValue.str (normalizeServerBase v))
          = normalizeServerBase v)
    ∧ (normalizeApiBase v).data.getLast? ≠ some '/'
    ∧ normalizeApiBase JSValue.nonString = DEFAULT_API_BASE
    ∧ (∀ s : String, v = JSValue.str s → jsTrim s = "" →
        normalizeApiBase v = DEFAULT_API_BASE)
    ∧ (normalizeApiBase v ≠ "" →
        jsTrim (normalizeApiBase v) = normalizeApiBase v →
        normalizeApiBase (JSValue.str (normalizeApiBase v))
          = normalizeApiBase v) := by
  have hdS : DEFAULT_SERVER_BASE.data.getLast? ≠ some '/' := by decide
  have hdA : DEFAULT_API_BASE.data.getLast? ≠ some '/' := by decide
  refine ⟨normalizeBaseWith_getLast? _ hdS v, rfl, ?_,
    normalizeBaseWith_idem _ v hdS, normalizeBaseWith_getLast? _ hdA v, rfl, ?_,
    normalizeBaseWith_idem _ v hdA⟩
  · intro s hv hts
    subst hv
    show normalizeBaseWith DEFAULT_SERVER_BASE (JSValue.str s) = DEFAULT_SERVER_BASE
    rw [normalizeBaseWith_str]
    by_cases h1 : s = ""
    · rw [if_pos h1]
    · rw [if_neg h1, if_pos hts]
  · intro s hv hts
    subst hv
    show normalizeBaseWith DEFAULT_API_BASE (JSValue.str s) = DEFAULT_API_BASE
    rw [normalizeBaseWith_str]
    by_cases h1 : s = ""
    · rw [if_pos h1]
    · rw [if_neg h1, if_pos hts]

/-- Witness for C9 (amended) at the input " http://a/b// ": the output
"http://a/b" has no trailing slash and a second application fixes it. -/
theorem normalizeBase_total_amended_witness :
    normalizeServerBase (JSValue.str " http://a/b// ") ≠ ""
    ∧ normalizeServerBase
        (JSValue.str (normalizeServerBase (JSValue.str " http://a/b// ")))
        = normalizeServerBase (JSValue.str " http://a/b// ") := by
  refine ⟨by decide, ?_⟩
  exact (normalizeBase_total_amended (JSValue.str " http://a/b// ")).2.2.2.1
    (by decide) (by decide)

/-! ### ComfyByocRtc (byoc-comfy-rtc.js in the checked sources) -/

/-- The session descriptor the gateway's startStream call returns (the
fields the claims need). -/
structure SessionInfo where
  streamId : String
  whipUrl : String
  whepUrl : String
  deriving Repr, DecidableEq

/-- State of a ComfyByocRtc instance.  Timers, the WHEP viewer and the canvas
capture stream are booleans (present or not); the RTCPeerConnection held in
`this.pc` is an id.  Ghost fields observe the outside world: `openPcs` lists
the RTCPeerConnections constructed and not yet closed, `sessionsCreated`
counts remote startStream (control-plane create) calls, and `posts` records
the statuses posted to /rtc/session, in order. -/
structure RtcState where
  running : Bool
  streamInfo : Option SessionInfo
  viewer : Bool
  pc : Option Nat
  canvasStream : Bool
  inputPollTimer : Bool
  outputCaptureTimer : Bool
  openPcs : List Nat
  nextPcId : Nat
  sessionsCreated : Nat
  posts : List String
  deriving Repr, DecidableEq

/-- The constructor's initial state: nothing running, all handles null. -/
def RtcState.init : RtcState :=
  { running := false, streamInfo := none, viewer := false, pc := none,
    canvasStream := false, inputPollTimer := false, outputCaptureTimer := false,
    openPcs := [], nextPcId := 0, sessionsCreated := 0, posts := [] }

/-- Embedding of `ComfyByocRtc.start({outputVideoEl})`, happy path.  The
guard `if (this.running) return;` makes a second start while running return
undefined (`none`) with no effect.  Otherwise the method posts "connecting",
allocates a remote session via startStream (`alloc` applied to the creation
count), posts the session ids, builds the ingest canvas and its capture
stream, opens an RTCPeerConnection and publishes via WHIP, starts the WHEP
viewer when a video element was supplied, starts both poll timers, posts
"connected", and resolves with undefined (`none`): JS async methods without a
return value always resolve to undefined. -/
def ComfyByocRtc.start (alloc : Nat → SessionInfo) (useViewer : Bool)
    (s : RtcState) : Option SessionInfo × RtcState :=
  if s.running then (none, s)
  else
    let info := alloc s.sessionsCreated
    let pcId := s.nextPcId
    (none,
      { running := true
        streamInfo := some info
        viewer := useViewer
        pc := some pcId
        canvasStream := true
        inputPollTimer := true
        outputCaptureTimer := useViewer
        openPcs := s.openPcs ++ [pcId]
        nextPcId := pcId + 1
        sessionsCreated := s.sessionsCreated + 1
        posts := s.posts ++ ["connecting", "connecting", "connected"] })

/-- Embedding of `ComfyByocRtc.stop()`.  `viewerStopFails` is the outcome of
the awaited `this.viewer.stop()` call (relevant only when a viewer exists)
and `remoteStopFails` the outcome of the awaited `stopStream(stopUrl)` call
(relevant only when a stopUrl exists, i.e. streamInfo is set); `pc.close()`
errors are swallowed by the inner try/catch.  A throw leaves the try block
for the finally clause (clear streamInfo, post "disconnected") and the
rejection propagates: the Bool result is false.  When not running the method
returns immediately, resolving undefined with no effect. -/
def ComfyByocRtc.stop (viewerStopFails remoteStopFails : Bool)
    (s : RtcState) : Bool × RtcState :=
  if !s.running then (true, s)
  else
    let s1 := { s with running := false,
                       inputPollTimer := false, outputCaptureTimer := false }
    if s1.viewer && viewerStopFails then
      (false, { s1 with streamInfo := none, posts := s1.posts ++ ["disconnected"] })
    else
      let s2 := { s1 with viewer := false }
      let s3 := match s2.pc with
        | some c => { s2 with pc := none, openPcs := s2.openPcs.erase c }
        | none => s2
      let s4 := { s3 with canvasStream := false }
      if s4.streamInfo.isSome && remoteStopFails then
        (false, { s4 with streamInfo := none, posts := s4.posts ++ ["disconnected"] })
      else
        (true, { s4 with streamInfo := none, posts := s4.posts ++ ["disconnected"] })

/-- A concrete gateway allocator for counterexamples and witnesses: the i-th
created session has streamId `toString i`. -/
def allocEx : Nat → SessionInfo := fun i => ⟨toString i, "whip", "whep"⟩

/-- C3 counterexample: starting from idle and then calling start again while
Streaming, the second call resolves undefined (`none`) — not the existing
SessionInfo (streamId "0") stored by the first call — although no second
remote session is created. -/
theorem comfyByocRtc_start_returns_no_info :
    (ComfyByocRtc.start allocEx true
        ((ComfyByocRtc.start allocEx true RtcState.init).2)).1 = none
    ∧ ((ComfyByocRtc.start allocEx true RtcState.init).2).streamInfo
        = some ⟨"0", "whip", "whep"⟩
    ∧ (ComfyByocRtc.start allocEx true
        ((ComfyByocRtc.start allocEx true RtcState.init).2)).1
        ≠ some ⟨"0", "whip", "whep"⟩
    ∧ (ComfyByocRtc.start allocEx true
        ((ComfyByocRtc.start allocEx true RtcState.init).2)).2.sessionsCreated
        = 1 := by
  refine ⟨rfl, by decide, by decide, by decide⟩

/-- C3 (amended): calling start again while a session is already running is a
complete no-op: it creates no second remote session and leaves the whole
state — in particular the stored session and its session_id — unchanged, but
it resolves undefined rather than returning the existing session's info. -/
theorem comfyByocRtc_start_idempotent_noop (alloc : Nat → SessionInfo)
    (useViewer : Bool) (s : RtcState) (h : s.running = true) :
    ComfyByocRtc.start alloc useViewer s = (none, s) := by
  simp [ComfyByocRtc.start, h]

/-- Witness for C3 (amended) right after a cold start. -/
theorem comfyByocRtc_start_idempotent_noop_witness :
    ((ComfyByocRtc.start allocEx true RtcState.init).2).running = true
    ∧ ComfyByocRtc.start allocEx true
        ((ComfyByocRtc.start allocEx true RtcState.init).2)
      = (none, (ComfyByocRtc.start allocEx true RtcState.init).2) :=
  ⟨by decide, comfyByocRtc_start_idempotent_noop allocEx true _ (by decide)⟩

lemma ComfyByocRtc.stop_of_not_running (vf rf : Bool) (s : RtcState)
    (h : s.running = false) : ComfyByocRtc.stop vf rf s = (true, s) := by
  simp [ComfyByocRtc.stop, h]

lemma ComfyByocRtc.stop_running_false (vf rf : Bool) (s : RtcState) :
    (ComfyByocRtc.stop vf rf s).2.running = false := by
  rcases s with ⟨running, si, viewer, pc, cs, ipt, oct, op, np, sc, posts⟩
  cases running <;> cases viewer <;> cases vf <;> cases pc <;> cases si <;>
    cases rf <;> rfl

/-- C5: calling stop() on a controller that is not running is a no-op
success — it resolves undefined without touching the state (no timers
cleared, nothing posted) — and stop is idempotent: a second stop after any
stop is exactly such a no-op success, whatever the cleanup outcomes were. -/
theorem comfyByocRtc_stop_idempotent (vf rf vf2 rf2 : Bool) (s : RtcState) :
    (s.running = false → ComfyByocRtc.stop vf rf s = (true, s))
    ∧ ComfyByocRtc.stop vf2 rf2 (ComfyByocRtc.stop vf rf s).2
        = (true, (ComfyByocRtc.stop vf rf s).2) :=
  ⟨fun h => ComfyByocRtc.stop_of_not_running vf rf s h,
   ComfyByocRtc.stop_of_not_running vf2 rf2 _
     (ComfyByocRtc.stop_running_false vf rf s)⟩

/-- Witness for C5: stop on the freshly constructed (idle) instance. -/
theorem comfyByocRtc_stop_idempotent_witness :
    RtcState.init.running = false
    ∧ ComfyByocRtc.stop false false RtcState.init = (true, RtcState.init) :=
  ⟨rfl, (comfyByocRtc_stop_idempotent false false false false RtcState.init).1 rfl⟩

/-- C6 counterexample: on a Streaming session with a WHEP viewer, a throwing
`viewer.stop()` makes stop() reject (result false) and skips the remaining
cleanup: the RTCPeerConnection is left open in `this.pc` and the canvas
capture stream keeps running — contradicting "always succeeds" and "failure
of an individual cleanup step does not prevent the remaining cleanup". -/
theorem comfyByocRtc_stop_counterexample :
    (ComfyByocRtc.stop true false
        ((ComfyByocRtc.start allocEx true RtcState.init).2)).1 = false
    ∧ (ComfyByocRtc.stop true false
        ((ComfyByocRtc.start allocEx true RtcState.init).2)).2.pc = some 0
    ∧ (ComfyByocRtc.stop true false
        ((ComfyByocRtc.start allocEx true RtcState.init).2)).2.canvasStream
        = true := by
  refine ⟨rfl, rfl, rfl⟩

/-- C6 (amended): stop() on an idle controller is a no-op success.  On a
running controller the poll timers are always cleared and — via the finally
clause — the session info is always dropped and a "disconnected" status
posted, whatever the cleanup outcomes; pc.close() errors are swallowed.  But
the cleanup is only complete (viewer dropped, RTCPeerConnection closed and
released, canvas stream stopped) when the awaited viewer.stop() call does
not throw, and stop() resolves successfully only when additionally the
remote stopStream call does not throw; a throw aborts the remaining try
block and the rejection propagates to the caller. -/
theorem comfyByocRtc_stop_cleanup (vf rf : Bool) (s : RtcState) :
    (s.running = false → ComfyByocRtc.stop vf rf s = (true, s))
    ∧ (s.running = true →
        (ComfyByocRtc.stop vf rf s).2.running = false
        ∧ (ComfyByocRtc.stop vf rf s).2.streamInfo = none
        ∧ (ComfyByocRtc.stop vf rf s).2.posts = s.posts ++ ["disconnected"]
        ∧ (ComfyByocRtc.stop vf rf s).2.inputPollTimer = false
        ∧ (ComfyByocRtc.stop vf rf s).2.outputCaptureTimer = false)
    ∧ (s.running = true → (s.viewer && vf) = false →
        (ComfyByocRtc.stop vf rf s).2.viewer = false
        ∧ (ComfyByocRtc.stop vf rf s).2.pc = none
        ∧ (ComfyByocRtc.stop vf rf s).2.openPcs
            = (match s.pc with
               | some c => s.openPcs.erase c
               | none => s.openPcs)
        ∧ (ComfyByocRtc.stop vf rf s).2.canvasStream = false)
    ∧ (s.running = true → (s.viewer && vf) = false →
        (s.streamInfo.isSome && rf) = false →
        (ComfyByocRtc.stop vf rf s).1 = true) := by
  rcases s with ⟨running, si, viewer, pc, cs, ipt, oct, op, np, sc, posts⟩
  refine ⟨fun h => ComfyByocRtc.stop_of_not_running vf rf _ h, ?_, ?_, ?_⟩
  · intro hr
    cases running
    · exact Bool.noConfusion hr
    · cases viewer <;> cases vf <;> cases pc <;> cases si <;> cases rf <;>
        exact ⟨rfl, rfl, rfl, rfl, rfl⟩
  · intro hr hv
    cases running
    · exact Bool.noConfusion hr
    · cases viewer <;> cases vf <;>
        first
        | exact Bool.noConfusion hv
        | cases pc <;> cases si <;> cases rf <;> exact ⟨rfl, rfl, rfl, rfl⟩
  · intro hr hv hrf
    cases running
    · exact Bool.noConfusion hr
    · cases viewer <;> cases vf <;>
        first
        | exact Bool.noConfusion hv
        | cases si <;> cases rf <;>
            first
            | exact Bool.noConfusion hrf
            | cases pc <;> rfl

/-- Witness for C6 (amended): a clean stop of a Streaming session releases
everything and succeeds. -/
theorem comfyByocRtc_stop_cleanup_witness :
    ((ComfyByocRtc.start allocEx true RtcState.init).2).running = true
    ∧ (ComfyByocRtc.stop false false
        ((ComfyByocRtc.start allocEx true RtcState.init).2)).1 = true
    ∧ (ComfyByocRtc.stop false false
        ((ComfyByocRtc.start allocEx true RtcState.init).2)).2.pc = none :=
  ⟨by decide,
   (comfyByocRtc_stop_cleanup false false
       ((ComfyByocRtc.start allocEx true RtcState.init).2)).2.2.2
     (by decide) (by decide) (by decide),
   ((comfyByocRtc_stop_cleanup false false
       ((ComfyByocRtc.start allocEx true RtcState.init).2)).2.2.1
     (by decide) (by decide)).2.1⟩

lemma ComfyByocRtc.start_of_running (alloc : Nat → SessionInfo)
    (uv : Bool) (s : RtcState) (h : s.running = true) :
    ComfyByocRtc.start alloc uv s = (none, s) := by
  simp [ComfyByocRtc.start, h]

lemma ComfyByocRtc.start_of_not_running (alloc : Nat → SessionInfo)
    (uv : Bool) (s : RtcState) (h : s.running = false) :
    ComfyByocRtc.start alloc uv s
      = (none,
        { running := true
          streamInfo := some (alloc s.sessionsCreated)
          viewer := uv
          pc := some s.nextPcId
          canvasStream := true
          inputPollTimer := true
          outputCaptureTimer := uv
          openPcs := s.openPcs ++ [s.nextPcId]
          nextPcId := s.nextPcId + 1
          sessionsCreated := s.sessionsCreated + 1
          posts := s.posts ++ ["connecting", "connecting", "connected"] }) := by
  simp [ComfyByocRtc.start, h]

lemma ComfyByocRtc.stop_clean_state (rf : Bool) (s : RtcState)
    (h : s.running = true) :
    (ComfyByocRtc.stop false rf s).2.pc = none
    ∧ (ComfyByocRtc.stop false rf s).2.openPcs
        = (match s.pc with
           | some c => s.openPcs.erase c
           | none => s.openPcs) := by
  rcases s with ⟨running, si, viewer, pc, cs, ipt, oct, op, np, sc, posts⟩
  cases running
  · exact Bool.noConfusion h
  · cases viewer <;> cases pc <;> cases si <;> cases rf <;> exact ⟨rfl, rfl⟩

/-- The at-most-one-transport invariant for ComfyByocRtc: the set of open
RTCPeerConnections is exactly the one held in `this.pc` (if any), and an
idle instance holds none. -/
def RtcInv (s : RtcState) : Prop :=
  s.openPcs = s.pc.toList ∧ (s.running = false → s.pc = none)

lemma RtcInv.start_preserves (alloc : Nat → SessionInfo) (uv : Bool)
    {s : RtcState} (h : RtcInv s) : RtcInv (ComfyByocRtc.start alloc uv s).2 := by
  by_cases hr : s.running = true
  · rw [ComfyByocRtc.start_of_running alloc uv s hr]
    exact h
  · have hrf : s.running = false := by
      revert hr; cases s.running <;> simp
    rw [ComfyByocRtc.start_of_not_running alloc uv s hrf]
    refine ⟨?_, fun hc => Bool.noConfusion hc⟩
    show s.openPcs ++ [s.nextPcId] = (some s.nextPcId).toList
    rw [h.1, h.2 hrf]
    rfl

lemma RtcInv.stop_preserves (rf : Bool) {s : RtcState} (h : RtcInv s) :
    RtcInv (ComfyByocRtc.stop false rf s).2 := by
  by_cases hr : s.running = true
  · obtain ⟨hpc, hop⟩ := ComfyByocRtc.stop_clean_state rf s hr
    refine ⟨?_, fun _ => hpc⟩
    rw [hop, hpc]
    cases hsp : s.pc with
    | none =>
      have := h.1
      rw [hsp] at this
      exact this
    | some c =>
      have := h.1
      rw [hsp] at this
      rw [this]
      simp [List.erase_cons_head]
  · have hrf : s.running = false := by
      revert hr; cases s.running <;> simp
    rw [ComfyByocRtc.stop_of_not_running false rf s hrf]
    exact h

/-- A lifecycle operation issued against a ComfyByocRtc instance (the UI's
handleStart / handleStop / restart sequences are lists of these). -/
inductive RtcOp where
  | start (useViewer : Bool)
  | stop (viewerStopFails remoteStopFails : Bool)
  deriving Repr, DecidableEq

/-- Runs a sequence of lifecycle operations. -/
def ComfyByocRtc.run (alloc : Nat → SessionInfo) (s : RtcState) :
    List RtcOp → RtcState
  | [] => s
  | RtcOp.start uv :: ops =>
      ComfyByocRtc.run alloc (ComfyByocRtc.start alloc uv s).2 ops
  | RtcOp.stop vf rf :: ops =>
      ComfyByocRtc.run alloc (ComfyByocRtc.stop vf rf s).2 ops

/-- Holds when the operation is not a stop whose viewer.stop() call throws
(the failure mode that aborts transport release, see the stop embedding). -/
def RtcOp.noViewerThrow : RtcOp → Prop
  | RtcOp.start _ => True
  | RtcOp.stop vf _ => vf = false

lemma RtcInv.run_clean_preserves (alloc : Nat → SessionInfo) :
    ∀ (ops : List RtcOp) (s : RtcState), RtcInv s →
      (∀ op ∈ ops, RtcOp.noViewerThrow op) →
      RtcInv (ComfyByocRtc.run alloc s ops) := by
  intro ops
  induction ops with
  | nil => intro s h _; exact h
  | cons op ops ih =>
    intro s h hclean
    have hops : ∀ op ∈ ops, RtcOp.noViewerThrow op :=
      fun o ho => hclean o (List.mem_cons_of_mem op ho)
    cases op with
    | start uv =>
      exact ih _ (RtcInv.start_preserves alloc uv h) hops
    | stop vf rf =>
      have hvf : vf = false := hclean _ (List.mem_cons_self _ _)
      subst hvf
      exact ih _ (RtcInv.stop_preserves rf h) hops

/-! ### RTCManager (rtc_manager.js in the checked sources) -/

/-- State of the RTCManager singleton: the attached ByocClient (an id),
whether a stream is active, plus ghost fields: the clients started via the
SDK and not yet stopped, and the id for the next constructed client. -/
structure ManagerState where
  client : Option Nat
  isStreamActive : Bool
  liveClients : List Nat
  nextClientId : Nat
  deriving Repr, DecidableEq

/-- The constructor's initial state. -/
def ManagerState.init : ManagerState :=
  { client := none, isStreamActive := false, liveClients := [], nextClientId := 0 }

/-- Embedding of `RTCManager.stopStream()`: if a client is attached it is
stopped (awaited) and detached; the active flag is cleared. -/
def RTCManager.stopStream (s : ManagerState) : ManagerState :=
  { client := none
    isStreamActive := false
    liveClients := match s.client with
      | some c => s.liveClients.erase c
      | none => s.liveClients
    nextClientId := s.nextClientId }

/-- Embedding of `RTCManager.startStream(config, credentials)`: if a stream
is active, stopStream() is awaited first; then a new ByocClient is
constructed, started and published, and the stream becomes active. -/
def RTCManager.startStream (s : ManagerState) : ManagerState :=
  let s1 := if s.isStreamActive then RTCManager.stopStream s else s
  { client := some s1.nextClientId
    isStreamActive := true
    liveClients := s1.liveClients ++ [s1.nextClientId]
    nextClientId := s1.nextClientId + 1 }

/-- A lifecycle command delivered to RTCManager over the rtc-command event
channel. -/
inductive MgrOp where
  | start
  | stop
  deriving Repr, DecidableEq

/-- Runs a sequence of RTCManager lifecycle commands. -/
def RTCManager.run (s : ManagerState) : List MgrOp → ManagerState
  | [] => s
  | MgrOp.start :: ops => RTCManager.run (RTCManager.startStream s) ops
  | MgrOp.stop :: ops => RTCManager.run (RTCManager.stopStream s) ops

/-- The at-most-one-client invariant for RTCManager: the set of running SDK
clients is exactly the attached one (if any), and an inactive manager has no
attached client. -/
def MgrInv (s : ManagerState) : Prop :=
  s.liveClients = s.client.toList ∧ (s.isStreamActive = false → s.client = none)

lemma MgrInv.stopStream_preserves {s : ManagerState} (h : MgrInv s) :
    MgrInv (RTCManager.stopStream s) := by
  refine ⟨?_, fun _ => rfl⟩
  show (match s.client with
        | some c => s.liveClients.erase c
        | none => s.liveClients) = (none : Option Nat).toList
  cases hc : s.client with
  | none =>
    have := h.1
    rw [hc] at this
    exact this
  | some c =>
    have := h.1
    rw [hc] at this
    rw [this]
    simp [List.erase_cons_head]

lemma MgrInv.startStream_preserves {s : ManagerState} (h : MgrInv s) :
    MgrInv (RTCManager.startStream s) := by
  unfold RTCManager.startStream
  by_cases ha : s.isStreamActive = true
  · rw [if_pos ha]
    refine ⟨?_, fun hc => Bool.noConfusion hc⟩
    show (RTCManager.stopStream s).liveClients ++ [(RTCManager.stopStream s).nextClientId]
        = (some (RTCManager.stopStream s).nextClientId).toList
    have hstop := MgrInv.stopStream_preserves h
    rw [hstop.1]
    rfl
  · rw [if_neg ha]
    have haf : s.isStreamActive = false := by
      revert ha; cases s.isStreamActive <;> simp
    refine ⟨?_, fun hc => Bool.noConfusion hc⟩
    show s.liveClients ++ [s.nextClientId] = (some s.nextClientId).toList
    rw [h.1, h.2 haf]
    rfl

lemma MgrInv.trace_preserves :
    ∀ (ops : List MgrOp) (s : ManagerState), MgrInv s →
      MgrInv (RTCManager.run s ops) := by
  intro ops
  induction ops with
  | nil => intro s h; exact h
  | cons op ops ih =>
    intro s h
    cases op with
    | start => exact ih _ (MgrInv.startStream_preserves h)
    | stop => exact ih _ (MgrInv.stopStream_preserves h)

/-- C4 counterexample: a restart during which the viewer teardown throws
leaves two concurrently open RTCPeerConnections — the claim's universal
"two overlapping active sessions never occur" fails on ComfyByocRtc once a
stop's viewer.stop() rejects. -/
theorem overlapping_transports_counterexample :
    (ComfyByocRtc.run allocEx RtcState.init
        [RtcOp.start true, RtcOp.stop true false, RtcOp.start true]).openPcs
      = [0, 1] := by decide

/-- C4 (amended): as long as every stop's viewer teardown completes without
throwing, at most one WebRTC transport is open at any time, for both
controllers: ComfyByocRtc refuses to start while running and a clean stop
releases the transport before a later start opens a new one, and
RTCManager.startStream stops and detaches the prior client before
constructing the next — so overlapping active sessions never occur.  (If a
viewer.stop() throws during stop, the prior transport stays open and a
subsequent start does create a second one.) -/
theorem single_active_transport (alloc : Nat → SessionInfo)
    (ops : List RtcOp) (mops : List MgrOp)
    (hclean : ∀ op ∈ ops, RtcOp.noViewerThrow op) :
    (ComfyByocRtc.run alloc RtcState.init ops).openPcs.length ≤ 1
    ∧ (RTCManager.run ManagerState.init mops).liveClients.length ≤ 1 := by
  constructor
  · have h := RtcInv.run_clean_preserves alloc ops RtcState.init
      ⟨rfl, fun _ => rfl⟩ hclean
    rw [h.1]
    cases (ComfyByocRtc.run alloc RtcState.init ops).pc <;> simp
  · have h := MgrInv.trace_preserves mops ManagerState.init ⟨rfl, fun _ => rfl⟩
    rw [h.1]
    cases (RTCManager.run ManagerState.init mops).client <;> simp

/-- Witness for C4 (amended): a clean restart trace on each controller. -/
theorem single_active_transport_witness :
    (∀ op ∈ [RtcOp.start true, RtcOp.stop false false, RtcOp.start false],
        RtcOp.noViewerThrow op)
    ∧ (ComfyByocRtc.run allocEx RtcState.init
        [RtcOp.start true, RtcOp.stop false false, RtcOp.start false]).openPcs.length
        ≤ 1
    ∧ (RTCManager.run ManagerState.init
        [MgrOp.start, MgrOp.start, MgrOp.stop]).liveClients.length ≤ 1 := by
  have hclean : ∀ op ∈ [RtcOp.start true, RtcOp.stop false false, RtcOp.start false],
      RtcOp.noViewerThrow op := by
    intro op hop
    fin_cases hop <;> trivial
  have h := single_active_transport allocEx
    [RtcOp.start true, RtcOp.stop false false, RtcOp.start false]
    [MgrOp.start, MgrOp.start, MgrOp.stop] hclean
  exact ⟨hclean, h.1, h.2⟩

/-! ### fetchJSON (Daydream state module in the checked sources) -/

/-- A settled HTTP response as the fetch would deliver it. -/
structure FetchResponse where
  ok : Bool
  status : Nat
  bodyText : String
  statusText : String
  deriving Repr, DecidableEq

/-- How the underlying fetch would end if not aborted: a network error or a
settled response. -/
inductive FetchOutcome where
  | networkError (message : String)
  | response (r : FetchResponse)
  deriving Repr, DecidableEq

/-- The default timeout passed to fetchJSON by every local control call
(/start, /stop, /status, the config endpoints). -/
def LOCAL_REQUEST_TIMEOUT_MS : Nat := 1500

/-- Embedding of `fetchJSON(path, options, timeout)`.  `duration` is the
time at which the underlying fetch would settle; the AbortController timer
fires at `timeout`, so if the deadline elapses first the fetch rejects with
an AbortError which is rethrown as "Request timed out".  Otherwise a network
error propagates; a settled response has its text read and JSON-parsed (a
parse failure stands in `{error: text}`), a non-ok response throws
"status: text-or-statusText", a 204 yields `{}`, and the JSON body
(represented by its text) is returned. -/
def fetchJSON (timeout duration : Nat) (outcome : FetchOutcome) :
    Except String String :=
  if timeout ≤ duration then Except.error "Request timed out"
  else
    match outcome with
    | FetchOutcome.networkError m => Except.error m
    | FetchOutcome.response r =>
      if !r.ok then
        Except.error (toString r.status ++ ": "
          ++ (if r.bodyText = "" then r.statusText else r.bodyText))
      else if r.status = 204 then Except.ok "{}"
      else Except.ok r.bodyText

/-- C7: every control-plane request through fetchJSON carries an explicit
timeout (LOCAL_REQUEST_TIMEOUT_MS = 1500 when the caller passes none), and
whenever the underlying fetch would not settle before that deadline the call
terminates with the "Request timed out" error instead of hanging, whatever
the eventual fetch outcome would have been. -/
theorem fetchJSON_timeout (timeout duration : Nat) (outcome : FetchOutcome)
    (h : timeout ≤ duration) :
    fetchJSON timeout duration outcome = Except.error "Request timed out" := by
  unfold fetchJSON
  rw [if_pos h]

/-- Witness for C7: a fetch that would only settle (successfully) at 2000 ms
is cut off by the default 1500 ms deadline. -/
theorem fetchJSON_timeout_witness :
    LOCAL_REQUEST_TIMEOUT_MS ≤ 2000
    ∧ fetchJSON LOCAL_REQUEST_TIMEOUT_MS 2000
        (FetchOutcome.response ⟨true, 200, "body", "OK"⟩)
        = Except.error "Request timed out" :=
  ⟨by decide, fetchJSON_timeout LOCAL_REQUEST_TIMEOUT_MS 2000
      (FetchOutcome.response ⟨true, 200, "body", "OK"⟩) (by decide)⟩

/-! ### Input-frame polling (byoc-comfy-rtc.js in the checked sources) -/

/-- The JSON payload of one GET /rtc/frames/input poll: the has_frame flag,
`Number(metadata.sequence || 0)` and the frame content (an id standing for
frame_b64). -/
structure PollPayload where
  hasFrame : Bool
  sequence : Nat
  frame : Nat
  deriving Repr, DecidableEq

/-- The handler state: `this.lastInputSeq` plus a ghost list of the sequence
numbers painted to the ingest canvas, in order. -/
structure PollState where
  lastInputSeq : Nat
  painted : List Nat
  deriving Repr, DecidableEq

/-- Embedding of one iteration of the `_startInputPolling` interval handler
(while running with a live canvas context).  `none` stands for an iteration
whose fetch or bitmap decode threw (caught and ignored).  Otherwise: no
has_frame → nothing happens; a non-zero sequence equal to lastInputSeq →
return before drawing; otherwise lastInputSeq is updated and the frame is
painted. -/
def pollStep (st : PollState) : Option PollPayload → PollState
  | none => st
  | some p =>
    if !p.hasFrame then st
    else if p.sequence ≠ 0 ∧ p.sequence = st.lastInputSeq then st
    else { lastInputSeq := p.sequence, painted := st.painted ++ [p.sequence] }

/-- Runs a sequence of poll iterations. -/
def pollRun (st : PollState) : List (Option PollPayload) → PollState
  | [] => st
  | p :: ps => pollRun (pollStep st p) ps

/-- The sequence numbers a poll trace actually presents (successful fetches
with has_frame set). -/
def pollSeqs : List (Option PollPayload) → List Nat
  | [] => []
  | none :: ps => pollSeqs ps
  | some p :: ps => if p.hasFrame then p.sequence :: pollSeqs ps else pollSeqs ps

lemma pollRun_count_le_one :
    ∀ (ps : List (Option PollPayload)) (st : PollState),
      (pollSeqs ps).Pairwise (· ≤ ·) →
      (∀ u ∈ pollSeqs ps, st.lastInputSeq ≤ u) →
      (∀ v ∈ st.painted, v ≤ st.lastInputSeq) →
      (∀ v, v ≠ 0 → st.painted.count v ≤ 1) →
      ∀ v, v ≠ 0 → (pollRun st ps).painted.count v ≤ 1 := by
  intro ps
  induction ps with
  | nil => intro st _ _ _ h4 v hv; exact h4 v hv
  | cons p ps ih =>
    intro st hpair hlow hbound hcount v hv
    cases p with
    | none =>
      exact ih st hpair hlow hbound hcount v hv
    | some q =>
      by_cases hq : q.hasFrame = true
      · have hseqs : pollSeqs (some q :: ps) = q.sequence :: pollSeqs ps := by
          simp [pollSeqs, hq]
        rw [hseqs] at hpair hlow
        have hhead : ∀ u ∈ pollSeqs ps, q.sequence ≤ u :=
          (List.pairwise_cons.mp hpair).1
        have hrest : (pollSeqs ps).Pairwise (· ≤ ·) :=
          (List.pairwise_cons.mp hpair).2
        have hlowq : st.lastInputSeq ≤ q.sequence :=
          hlow q.sequence (List.mem_cons_self _ _)
        by_cases hdup : q.sequence ≠ 0 ∧ q.sequence = st.lastInputSeq
        · have hstep : pollStep st (some q) = st := by
            simp only [pollStep, hq, Bool.not_true, Bool.false_eq_true,
              if_false, if_pos hdup]
          rw [pollRun, hstep]
          refine ih st hrest ?_ hbound hcount v hv
          intro u hu
          exact le_trans hlowq (hhead u hu)
        · have hstep : pollStep st (some q)
              = { lastInputSeq := q.sequence,
                  painted := st.painted ++ [q.sequence] } := by
            simp only [pollStep, hq, Bool.not_true, Bool.false_eq_true,
              if_false, if_neg hdup]
          rw [pollRun, hstep]
          refine ih _ hrest hhead ?_ ?_ v hv
          · intro w hw
            rcases List.mem_append.mp hw with hw | hw
            · exact le_trans (hbound w hw) hlowq
            · rw [List.mem_singleton.mp hw]
          · intro w hw
            rw [List.count_append]
            by_cases hwq : w = q.sequence
            · have hnotmem : w ∉ st.painted := by
                intro hmem
                have ha : w ≤ st.lastInputSeq := hbound w hmem
                have hb : st.lastInputSeq ≤ w := by
                  rw [hwq]; exact hlowq
                have hc : q.sequence = st.lastInputSeq := by
                  rw [← hwq]; exact le_antisymm ha hb
                exact hdup ⟨by rw [← hwq]; exact hw, hc⟩
              rw [List.count_eq_zero_of_not_mem hnotmem, hwq]
              simp
            · have hzero : List.count w [q.sequence] = 0 :=
                List.count_eq_zero_of_not_mem
                  (by simp only [List.mem_singleton]; exact hwq)
              rw [hzero, Nat.add_zero]
              exact hcount w hw
      · have hq' : q.hasFrame = false := by
          revert hq; cases q.hasFrame <;> simp
        have hseqs : pollSeqs (some q :: ps) = pollSeqs ps := by
          simp [pollSeqs, hq']
        rw [hseqs] at hpair hlow
        have hstep : pollStep st (some q) = st := by
          simp [pollStep, hq']
        rw [pollRun, hstep]
        exact ih st hpair hlow hbound hcount v hv

/-- C10: the input-frame poll handler deduplicates by sequence number: an
iteration whose payload has has_frame set and a non-zero sequence equal to
lastInputSeq changes nothing — nothing is drawn and lastInputSeq keeps its
value; consequently, over any poll trace whose presented sequence numbers
are non-decreasing (as delivered by the single-slot latest-frame endpoint,
which repeats the same frame on consecutive reads), every non-zero sequence
number is painted to the ingest canvas at most once. -/
theorem inputPolling_dedup (st : PollState) (p : PollPayload)
    (ps : List (Option PollPayload))
    (h1 : p.hasFrame = true) (h2 : p.sequence ≠ 0)
    (h3 : p.sequence = st.lastInputSeq)
    (hmono : (pollSeqs ps).Pairwise (· ≤ ·)) :
    pollStep st (some p) = st
    ∧ ∀ v, v ≠ 0 → (pollRun ⟨0, []⟩ ps).painted.count v ≤ 1 := by
  constructor
  · simp only [pollStep, h1, Bool.not_true, Bool.false_eq_true, if_false,
      if_pos (And.intro h2 h3)]
  · intro v hv
    refine pollRun_count_le_one ps ⟨0, []⟩ hmono ?_ ?_ ?_ v hv
    · intro u _
      exact Nat.zero_le u
    · intro w hw
      exact absurd hw (List.not_mem_nil w)
    · intro w _
      simp

/-- Witness for C10: the endpoint returns the frame with sequence 5 twice;
the second read paints nothing, and sequence 5 is painted once in total. -/
theorem inputPolling_dedup_witness :
    pollStep ⟨5, [5]⟩ (some ⟨true, 5, 9⟩) = ⟨5, [5]⟩
    ∧ (pollRun ⟨0, []⟩
        [some ⟨true, 5, 1⟩, some ⟨true, 5, 2⟩]).painted.count 5 ≤ 1 := by
  have h := inputPolling_dedup ⟨5, [5]⟩ ⟨true, 5, 9⟩
    [some ⟨true, 5, 1⟩, some ⟨true, 5, 2⟩] rfl (by decide) rfl (by decide)
  exact ⟨h.1, h.2 5 (by decide)⟩

end RtcNode
